import Mathlib

/- Shallow embedding of the kota113/cyber-hackathon core:
   - src/lib/mcp-client.ts      (MCPClientManager: sessions, pending connections)
   - src/lib/search-service.ts  (SearchService: aggregate search, sort, dedup)
   - src/lib/bedrock-client.ts  (BedrockClientService: converse / tool continuation)
   - src/lib/agent-service.ts   (AgentService: conversations, chat tool loop)

   Network effects (MCP connect / listTools / callTool, Bedrock send, OAuth
   token lookups) are suspension points whose outcomes are supplied as
   explicit `Except`/`Bool` oracle parameters; everything else follows the
   TypeScript line by line.  JavaScript timestamps are modelled as `Nat`
   (epoch milliseconds), `lastModified` ISO strings as `Option Int` of their
   epoch value, and `Array.prototype.sort` (specified stable) as the stable
   insertion sort of the same comparator. -/

/-- The configured backend set (`type MCPService = 'notion' | 'asana'`). -/
inductive MCPService where
  | notion
  | asana
deriving DecidableEq

/-- String form of a service id, as used in template literals. -/
def MCPService.toString : MCPService → String
  | .notion => "notion"
  | .asana => "asana"

/-- `SearchResult` from `@/types/api` as used by the core. -/
structure SearchResult where
  id : String
  title : String
  content : String
  source : MCPService
  url : Option String := none
  lastModified : Option Int := none
deriving DecidableEq

/-- `query.trim()` (whitespace stripped from both ends), written over the
    character list so that concrete inputs evaluate. -/
def trimChars (s : String) : String :=
  ⟨((s.data.dropWhile Char.isWhitespace).reverse.dropWhile Char.isWhitespace).reverse⟩

/-- `s.substring(0, n)`, written over the character list. -/
def takeChars (s : String) (n : Nat) : String := ⟨s.data.take n⟩

/-- Lexicographic strict order on character lists. -/
def ltChars : List Char → List Char → Bool
  | [], [] => false
  | [], _ :: _ => true
  | _ :: _, [] => false
  | a :: as, b :: bs => if a < b then true else if b < a then false else ltChars as bs

/-- `a.title.localeCompare(b.title)` modelled as the lexicographic sign. -/
def compareStrings (a b : String) : Int :=
  if ltChars a.data b.data then -1 else if ltChars b.data a.data then 1 else 0

/-- The comparator body of `SearchService.sortSearchResults` (lines 326-339):
    when both `lastModified` are present, newest first; otherwise source
    (notion first, then asana); finally title ascending. -/
def compareResults (a b : SearchResult) : Int :=
  match a.lastModified, b.lastModified with
  | some ta, some tb => tb - ta
  | _, _ =>
    if a.source ≠ b.source then
      (if a.source = MCPService.notion then -1 else 1)
    else
      compareStrings a.title b.title

/-- `a` may come before `b` under the comparator. -/
def resultLE (a b : SearchResult) : Prop := compareResults a b ≤ 0

instance : DecidableRel resultLE :=
  fun a b => inferInstanceAs (Decidable (compareResults a b ≤ 0))

/-- `SearchService.sortSearchResults`: `results.sort(comparator)`, the
    ECMAScript stable sort modelled as stable insertion sort. -/
def sortSearchResults (results : List SearchResult) : List SearchResult :=
  List.insertionSort resultLE results

/-- The dedup key of `SearchService.deduplicateResults` (line 351):
    `` `${result.source}-${result.title}-${result.content.substring(0, 100)}` ``. -/
def dedupKey (r : SearchResult) : String :=
  r.source.toString ++ "-" ++ r.title ++ "-" ++ takeChars r.content 100

/-- The `for`-loop of `deduplicateResults` with its `seen` set. -/
def dedupGo (seen : List String) : List SearchResult → List SearchResult
  | [] => []
  | r :: rest =>
    if dedupKey r ∈ seen then dedupGo seen rest
    else r :: dedupGo (dedupKey r :: seen) rest

/-- `SearchService.deduplicateResults` (lines 345-360). -/
def deduplicateResults (results : List SearchResult) : List SearchResult :=
  dedupGo [] results

/-- `Promise.allSettled` collection: a fulfilled backend contributes its
    results, a rejected one contributes nothing (lines 36-51). -/
def settledResults (outcome : Except String (List SearchResult)) : List SearchResult :=
  match outcome with
  | .ok v => v
  | .error _ => []

/-- `SearchService.search` (lines 17-66).  The two backend outcomes stand for
    the `mcpClientManager.searchService` promises; the second component
    records which backends were invoked (empty when validation rejects the
    query before any network activity). -/
def SearchService.search (query : String)
    (notionOutcome asanaOutcome : Except String (List SearchResult)) :
    Except String (List SearchResult) × List MCPService :=
  if (trimChars query).length = 0 then
    (.error "Search query cannot be empty", [])
  else
    (.ok (sortSearchResults (settledResults notionOutcome ++ settledResults asanaOutcome)),
     [MCPService.notion, MCPService.asana])

/-! ## MCPClientManager (src/lib/mcp-client.ts)

The manager owns two maps keyed by service: `clients` (live sessions) and
`connectionPromises` (pending connection attempts).  JavaScript runs the
synchronous prefix of every async method atomically up to its first `await`,
so the manager is modelled as a labelled transition system whose atomic
steps are exactly those synchronous blocks. -/

/-- Pointwise update of a per-service map. -/
def setSvc {β : Type} (f : MCPService → β) (s : MCPService) (v : β) : MCPService → β :=
  fun x => if x = s then v else f x

/-- The mutable state of one `MCPClientManager` instance, plus a ghost
    counter of underlying connect attempts per service. -/
structure ManagerState where
  clients : MCPService → Bool
  pending : MCPService → Bool
  connectCount : MCPService → Nat

/-- Fresh manager: both maps empty. -/
def initialManagerState : ManagerState :=
  { clients := fun _ => false, pending := fun _ => false, connectCount := fun _ => 0 }

/-- Labels for the manager's atomic steps. -/
inductive ManagerLabel where
  | acquireHit (s : MCPService)
  | acquireJoin (s : MCPService)
  | acquireStart (s : MCPService)
  | settleSuccess (s : MCPService)
  | settleFailure (s : MCPService)
  | closeClient (s : MCPService)
  | probeEvict (s : MCPService)
deriving DecidableEq

/-- Atomic transitions of `MCPClientManager`:
    - `acquireHit`: `getClient` lines 42-45, existing client returned;
    - `acquireJoin`: lines 48-51, caller awaits the existing promise;
    - `acquireStart`: lines 54-55, new promise stored, connect attempt begins;
    - `settleSuccess`: lines 58-61, client stored and promise cleared;
    - `settleFailure`: lines 62-65, promise cleared and error rethrown;
    - `closeClient`: `disconnect` lines 170-177;
    - `probeEvict`: `getConnectionStatus` line 153, dead client removed. -/
inductive ManagerStep : ManagerState → ManagerLabel → ManagerState → Prop where
  | acquireHit (st : ManagerState) (s : MCPService) (h : st.clients s = true) :
      ManagerStep st (.acquireHit s) st
  | acquireJoin (st : ManagerState) (s : MCPService)
      (hc : st.clients s = false) (hp : st.pending s = true) :
      ManagerStep st (.acquireJoin s) st
  | acquireStart (st : ManagerState) (s : MCPService)
      (hc : st.clients s = false) (hp : st.pending s = false) :
      ManagerStep st (.acquireStart s)
        { st with pending := setSvc st.pending s true,
                  connectCount := setSvc st.connectCount s (st.connectCount s + 1) }
  | settleSuccess (st : ManagerState) (s : MCPService) (hp : st.pending s = true) :
      ManagerStep st (.settleSuccess s)
        { st with clients := setSvc st.clients s true,
                  pending := setSvc st.pending s false }
  | settleFailure (st : ManagerState) (s : MCPService) (hp : st.pending s = true) :
      ManagerStep st (.settleFailure s)
        { st with pending := setSvc st.pending s false }
  | closeClient (st : ManagerState) (s : MCPService) :
      ManagerStep st (.closeClient s)
        { st with clients := setSvc st.clients s false }
  | probeEvict (st : ManagerState) (s : MCPService) (hc : st.clients s = true) :
      ManagerStep st (.probeEvict s)
        { st with clients := setSvc st.clients s false }

/-- States reachable from a fresh manager. -/
inductive ManagerReachable : ManagerState → Prop where
  | init : ManagerReachable initialManagerState
  | step {st : ManagerState} {l : ManagerLabel} {st' : ManagerState} :
      ManagerReachable st → ManagerStep st l st' → ManagerReachable st'

/-- What the synchronous head of `getClient` (lines 40-55) does. -/
inductive AcquireOutcome where
  | existingClient
  | joinPending
  | startConnect
deriving DecidableEq

/-- Functional form of the synchronous head of `getClient`: return the live
    client, join the pending promise, or store a new promise (which is the
    one underlying connect attempt). -/
def getClientPhase (st : ManagerState) (s : MCPService) : AcquireOutcome × ManagerState :=
  if st.clients s then (.existingClient, st)
  else if st.pending s then (.joinPending, st)
  else (.startConnect,
    { st with pending := setSvc st.pending s true,
              connectCount := setSvc st.connectCount s (st.connectCount s + 1) })

/-- Result shape of `getConnectionStatus`. -/
structure ConnStatus where
  connected : Bool
  needsAuth : Bool
deriving DecidableEq

/-- `MCPClientManager.getConnectionStatus` (lines 134-165).  `authOutcome`
    is the `oauthService.isAuthenticated` promise (its rejection lands in
    the outer catch), `listToolsOk` tells whether the `client.listTools()`
    liveness probe succeeds. -/
def getConnectionStatus (st : ManagerState) (s : MCPService)
    (authOutcome : Except String Bool) (listToolsOk : Bool) :
    ConnStatus × ManagerState :=
  match authOutcome with
  | .error _ => ({ connected := false, needsAuth := true }, st)
  | .ok false => ({ connected := false, needsAuth := true }, st)
  | .ok true =>
    if st.clients s then
      if listToolsOk then ({ connected := true, needsAuth := false }, st)
      else ({ connected := false, needsAuth := false },
            { st with clients := setSvc st.clients s false })
    else ({ connected := false, needsAuth := false }, st)

/-! ## BedrockClientService (src/lib/bedrock-client.ts)

The Bedrock client is a singleton with a private `conversationHistory`
array shared by every caller.  `this.client.send` is the model oracle; its
outcome is a parameter.  A model reply is a list of content blocks plus a
stop reason; `message := none` covers a response without an output message
(in which case no assistant entry is pushed). -/

/-- Message roles. -/
inductive Role where
  | user
  | assistant
deriving DecidableEq

instance exceptDecEq {ε α : Type} [DecidableEq ε] [DecidableEq α] :
    DecidableEq (Except ε α) := fun x y =>
  match x, y with
  | .ok a, .ok b =>
      if h : a = b then isTrue (by rw [h]) else isFalse (fun he => h (Except.ok.inj he))
  | .error a, .error b =>
      if h : a = b then isTrue (by rw [h]) else isFalse (fun he => h (Except.error.inj he))
  | .ok _, .error _ => isFalse (fun he => Except.noConfusion he)
  | .error _, .ok _ => isFalse (fun he => Except.noConfusion he)

/-- Bedrock `ContentBlock` as used by the core: text, a tool-use request,
    or a tool result (error text or json payload). -/
inductive ContentBlock where
  | text (s : String)
  | toolUse (name : String) (input : Option String) (toolUseId : String)
  | toolResult (toolUseId : String) (output : Except String (List SearchResult))
deriving DecidableEq

/-- `ConversationMessage` (bedrock-client.ts lines 18-21). -/
structure ConversationMessage where
  role : Role
  content : List ContentBlock
deriving DecidableEq

/-- The Bedrock client's mutable state: its ambient `conversationHistory`. -/
structure BedrockState where
  history : List ConversationMessage
deriving DecidableEq

/-- One model reply (`response.output?.message` and `response.stopReason`). -/
structure ModelOutput where
  message : Option (List ContentBlock)
  stopReason : String

/-- A tool call requested by the model (name, `input || {}`, correlation id). -/
structure ToolUseRequest where
  name : String
  input : Option String
  toolUseId : String
deriving DecidableEq

/-- `ToolExecutionResult` (bedrock-client.ts lines 11-15). -/
structure ToolExecutionResult where
  toolUseId : String
  result : Option (List SearchResult)
  error : Option String := none
deriving DecidableEq

/-- `content.filter(b => 'text' in b && b.text).map(...).join("")`. -/
def extractText (content : List ContentBlock) : String :=
  String.join (content.filterMap fun b =>
    match b with
    | .text s => if s = "" then none else some s
    | _ => none)

/-- Collect `toolUse` blocks whose `name` and `toolUseId` are truthy
    (converse lines 87-100). -/
def extractToolUses (content : List ContentBlock) : List ToolUseRequest :=
  content.filterMap fun b =>
    match b with
    | .toolUse name input id =>
        if name = "" ∨ id = "" then none
        else some { name := name, input := input, toolUseId := id }
    | _ => none

/-- What `converse` returns to the agent (lines 115-119). -/
structure ConverseResult where
  response : String
  toolUses : List ToolUseRequest
  needsToolExecution : Bool

/-- `BedrockClientService.converse` (lines 42-125).  Returns the result (or
    the wrapped error), the new client state, and the message sequence that
    was supplied to the model.  On a send failure the two history pushes
    (lines 103-113) never run. -/
def BedrockClientService.converse (st : BedrockState) (userMessage : String)
    (outcome : Except String ModelOutput) :
    Except String ConverseResult × BedrockState × List ConversationMessage :=
  let sent := st.history ++ [⟨Role.user, [ContentBlock.text userMessage]⟩]
  match outcome with
  | .error e => (.error ("LLM conversation failed: " ++ e), st, sent)
  | .ok out =>
    let content := out.message.getD []
    let toolUses := extractToolUses content
    let hist :=
      match out.message with
      | some msg => sent ++ [⟨Role.assistant, msg⟩]
      | none => sent
    (.ok { response := extractText content,
           toolUses := toolUses,
           needsToolExecution := (out.stopReason == "tool_use") && !toolUses.isEmpty },
     { history := hist }, sent)

/-- Build the `toolResult` content block for one execution result
    (continueWithToolResults lines 133-139). -/
def toolResultBlock (r : ToolExecutionResult) : ContentBlock :=
  match r.error with
  | some e => .toolResult r.toolUseId (.error ("Error: " ++ e))
  | none => .toolResult r.toolUseId (.ok (r.result.getD []))

/-- `BedrockClientService.continueWithToolResults` (lines 130-178).  The tool
    results are pushed onto the history before the send, so that push
    survives even a failed continuation. -/
def BedrockClientService.continueWithToolResults (st : BedrockState)
    (toolResults : List ToolExecutionResult) (outcome : Except String ModelOutput) :
    Except String String × BedrockState × List ConversationMessage :=
  let sent := st.history ++ [⟨Role.user, toolResults.map toolResultBlock⟩]
  match outcome with
  | .error e => (.error ("Tool result processing failed: " ++ e), { history := sent }, sent)
  | .ok out =>
    let hist :=
      match out.message with
      | some msg => sent ++ [⟨Role.assistant, msg⟩]
      | none => sent
    (.ok (extractText (out.message.getD [])), { history := hist }, sent)

/-! ## AgentService (src/lib/agent-service.ts) -/

/-- One transcript entry of an `AgentConversation` (lines 11-16). -/
structure Message where
  role : Role
  content : String
  timestamp : Nat
  toolsUsed : Option (List String) := none
deriving DecidableEq

/-- `AgentConversation` (lines 9-19). -/
structure AgentConversation where
  id : String
  messages : List Message
  createdAt : Nat
  updatedAt : Nat
deriving DecidableEq

/-- The agent singleton's state: its conversations map (modelled as the
    partial lookup function of the JS `Map`), the shared Bedrock client
    state, and the mutable system prompt. -/
structure AgentState where
  conversations : String → Option AgentConversation
  bedrock : BedrockState
  systemPrompt : String

/-- `AgentResponse` (lines 22-27). -/
structure AgentResponse where
  response : String
  toolsUsed : List String
  searchResults : Option (List SearchResult)
  conversationId : String
deriving DecidableEq

/-- `AgentService.createConversation` (lines 52-64); the generated id and
    the clock reading are parameters. -/
def AgentService.createConversation (st : AgentState) (newId : String) (now : Nat) :
    String × AgentState :=
  let fresh : AgentConversation :=
    { id := newId, messages := [], createdAt := now, updatedAt := now }
  (newId,
   { st with conversations := fun x => if x = newId then some fresh else st.conversations x })

/-- The accumulator of the tool-execution `for`-loop (chat lines 105-129). -/
structure ToolLoopState where
  toolResults : List ToolExecutionResult
  toolsUsed : List String
  searchResults : List SearchResult
deriving DecidableEq

/-- The result recorded for one requested tool call: payload on success,
    error string (and `result: null`) on a failed dispatch. -/
def resultOfToolUse (dispatch : String → Option String → Except String (List SearchResult))
    (tu : ToolUseRequest) : ToolExecutionResult :=
  match dispatch tu.name tu.input with
  | .ok r => { toolUseId := tu.toolUseId, result := some r }
  | .error e => { toolUseId := tu.toolUseId, result := none, error := some e }

/-- One iteration of the tool loop: push the result; on success also record
    the tool name and (when the payload is a non-empty result array) the
    search results. -/
def toolLoopStep (dispatch : String → Option String → Except String (List SearchResult))
    (acc : ToolLoopState) (tu : ToolUseRequest) : ToolLoopState :=
  match dispatch tu.name tu.input with
  | .ok r =>
      { toolResults := acc.toolResults ++ [{ toolUseId := tu.toolUseId, result := some r }],
        toolsUsed := acc.toolsUsed ++ [tu.name],
        searchResults := acc.searchResults ++ (if 0 < r.length then r else []) }
  | .error e =>
      { toolResults := acc.toolResults ++
          [{ toolUseId := tu.toolUseId, result := none, error := some e }],
        toolsUsed := acc.toolsUsed,
        searchResults := acc.searchResults }

/-- The whole tool-execution loop (chat lines 102-129).  `dispatch` stands
    for `executeMCPTool` (it rejects with `Unknown tool: ...` on an unknown
    name and with a validation error on a missing query). -/
def runToolLoop (dispatch : String → Option String → Except String (List SearchResult))
    (toolUses : List ToolUseRequest) : ToolLoopState :=
  toolUses.foldl (toolLoopStep dispatch) ⟨[], [], []⟩

/-- What one `chat` call produces: its result, the new agent state, and the
    transcript supplied to the model on each of the (at most two) model
    invocations. -/
structure ChatOutcome where
  result : Except String AgentResponse
  state : AgentState
  sent : List (List ConversationMessage)

/-- The user `Message` a successful chat turn appends (lines 136-140). -/
def chatUserMessage (message : String) (now : Nat) : Message :=
  { role := Role.user, content := message, timestamp := now }

/-- The assistant `Message` a successful chat turn appends (lines 142-147):
    it carries the used tool names only when some tool was used. -/
def chatAssistantMessage (finalResponse : String) (toolsUsed : List String) (now : Nat) :
    Message :=
  { role := Role.assistant, content := finalResponse, timestamp := now,
    toolsUsed := if toolsUsed.isEmpty then none else some toolsUsed }

/-- The tail of `chat` that runs after the final response is known
    (lines 135-156): append the user and assistant messages, stamp
    `updatedAt`, and build the `AgentResponse`. -/
def finishChat (st : AgentState) (bst : BedrockState) (cid : String)
    (conversation : AgentConversation) (message finalResponse : String)
    (toolsUsed : List String) (searchResults : List SearchResult) (now : Nat)
    (sent : List (List ConversationMessage)) : ChatOutcome :=
  let conversation' : AgentConversation :=
    { conversation with
        messages := conversation.messages ++
          [chatUserMessage message now, chatAssistantMessage finalResponse toolsUsed now],
        updatedAt := now }
  let resp : AgentResponse :=
    { response := finalResponse, toolsUsed := toolsUsed,
      searchResults := if searchResults.isEmpty then none else some searchResults,
      conversationId := cid }
  let st' : AgentState :=
    { st with bedrock := bst,
              conversations := fun x => if x = cid then some conversation' else st.conversations x }
  { result := .ok resp, state := st', sent := sent }

/-- `AgentService.chat` (lines 69-167).  `newId`/`now` model the generated
    conversation id and the clock, `out1`/`out2` the two possible model
    invocations, `dispatch` the `executeMCPTool` outcomes. -/
def AgentService.chat (st : AgentState) (message : String) (conversationId : Option String)
    (newId : String) (now : Nat) (out1 : Except String ModelOutput)
    (dispatch : String → Option String → Except String (List SearchResult))
    (out2 : Except String ModelOutput) : ChatOutcome :=
  if (trimChars message).length = 0 then
    { result := .error "Message cannot be empty", state := st, sent := [] }
  else
    let resolved :=
      match conversationId with
      | none => AgentService.createConversation st newId now
      | some cid => (cid, st)
    let cid := resolved.1
    let st1 := resolved.2
    match st1.conversations cid with
    | none => { result := .error "Conversation not found", state := st1, sent := [] }
    | some conversation =>
      match BedrockClientService.converse st1.bedrock message out1 with
      | (.error e, bst1, sent1) =>
          { result := .error ("Agent conversation failed: " ++ e),
            state := { st1 with bedrock := bst1 }, sent := [sent1] }
      | (.ok llmResponse, bst1, sent1) =>
          if llmResponse.needsToolExecution && !llmResponse.toolUses.isEmpty then
            let loop := runToolLoop dispatch llmResponse.toolUses
            match BedrockClientService.continueWithToolResults bst1 loop.toolResults out2 with
            | (.error e, bst2, sent2) =>
                { result := .error ("Agent conversation failed: " ++ e),
                  state := { st1 with bedrock := bst2 }, sent := [sent1, sent2] }
            | (.ok finalResponse, bst2, sent2) =>
                finishChat st1 bst2 cid conversation message finalResponse
                  loop.toolsUsed loop.searchResults now [sent1, sent2]
          else
            finishChat st1 bst1 cid conversation message llmResponse.response
              [] [] now [sent1]

/-- `AgentService.clearConversation` (lines 186-194): on a hit, the Bedrock
    history is cleared and the conversation deleted. -/
def AgentService.clearConversation (st : AgentState) (cid : String) : Bool × AgentState :=
  match st.conversations cid with
  | some _ =>
      (true,
       { st with bedrock := { history := [] },
                 conversations := fun x => if x = cid then none else st.conversations x })
  | none => (false, st)

/-- `AgentService.clearAllConversations` (lines 199-203). -/
def AgentService.clearAllConversations (st : AgentState) : AgentState :=
  { st with conversations := fun _ => none, bedrock := { history := [] } }

/-- The operations that can touch the conversations map. -/
inductive AgentOp where
  | chatOp (message : String) (conversationId : Option String) (newId : String) (now : Nat)
      (out1 : Except String ModelOutput)
      (dispatch : String → Option String → Except String (List SearchResult))
      (out2 : Except String ModelOutput)
  | createOp (newId : String) (now : Nat)
  | clearOp (cid : String)
  | clearAllOp
  | setPromptOp (p : String)

/-- State transformer of each operation. -/
def applyAgentOp (st : AgentState) : AgentOp → AgentState
  | .chatOp message conversationId newId now out1 dispatch out2 =>
      (AgentService.chat st message conversationId newId now out1 dispatch out2).state
  | .createOp newId now => (AgentService.createConversation st newId now).2
  | .clearOp cid => (AgentService.clearConversation st cid).2
  | .clearAllOp => AgentService.clearAllConversations st
  | .setPromptOp p => { st with systemPrompt := p }

/-- Generated conversation ids are fresh: `conv_${Date.now()}_${random}`
    never collides with a stored id.  This is the only assumption about id
    generation an operation needs. -/
def opFreshIds (st : AgentState) : AgentOp → Prop
  | .chatOp _ conversationId newId _ _ _ _ =>
      conversationId = none → st.conversations newId = none
  | .createOp newId _ => st.conversations newId = none
  | _ => True

/-- The clock reading an operation stamps, when it stamps one. -/
def opTime : AgentOp → Option Nat
  | .chatOp _ _ _ now _ _ _ => some now
  | .createOp _ now => some now
  | _ => none

/-- The conversation id a chat call resolves to (lines 74-77): the given id,
    or the generated one when none was given. -/
def chatCid (conversationId : Option String) (newId : String) : String :=
  match conversationId with
  | none => newId
  | some cid => cid

/-- The agent state after the resolve-or-create step of `chat` (lines 74-82):
    unchanged for an explicit id, with a fresh empty conversation otherwise. -/
def chatBase (st : AgentState) (conversationId : Option String) (newId : String)
    (now : Nat) : AgentState :=
  match conversationId with
  | none => (AgentService.createConversation st newId now).2
  | some _ => st

/-- Formalisation of the transcript the CLAIM says is supplied to the model:
    the resolved conversation's ordered messages, one text block each.  Used
    only to compare the claim against the code, which supplies the Bedrock
    client's own accumulated history instead. -/
def claimedTranscript (c : AgentConversation) : List ConversationMessage :=
  c.messages.map fun m => { role := m.role, content := [ContentBlock.text m.content] }

/-! ## Concrete inputs used by counterexamples and witnesses -/

/-- A result with no timestamp, from notion. -/
def rAbsentNotion : SearchResult :=
  { id := "n1", title := "t", content := "", source := MCPService.notion }

/-- A result with a timestamp, from asana. -/
def rPresentAsana : SearchResult :=
  { id := "a1", title := "t", content := "", source := MCPService.asana,
    lastModified := some 5 }

/-- Two results that disagree on (source, title, first-100-chars) but whose
    concatenated keys coincide: `notion-a-b-x` both ways. -/
def dupTitleA : SearchResult :=
  { id := "1", title := "a", content := "b-x", source := MCPService.notion }

/-- Companion of `dupTitleA` with the dash on the other side of the
    separator. -/
def dupTitleB : SearchResult :=
  { id := "2", title := "a-b", content := "x", source := MCPService.notion }

/-- A third result whose key differs from `dupTitleA`'s. -/
def dupTitleC : SearchResult :=
  { id := "3", title := "z", content := "w", source := MCPService.notion }

/-- Intermediate state: one connect attempt for notion in flight. -/
def managerStateAfterStart : ManagerState :=
  { initialManagerState with
      pending := setSvc initialManagerState.pending MCPService.notion true,
      connectCount := setSvc initialManagerState.connectCount MCPService.notion
        (initialManagerState.connectCount MCPService.notion + 1) }

/-- State with a live notion session, no pending attempt. -/
def managerStateConnected : ManagerState :=
  { managerStateAfterStart with
      clients := setSvc managerStateAfterStart.clients MCPService.notion true,
      pending := setSvc managerStateAfterStart.pending MCPService.notion false }

/-- A dispatch table that knows `searchNotion` (returning no results) and
    rejects anything else, as `executeMCPTool` does for unknown names. -/
def dispatchDemo : String → Option String → Except String (List SearchResult) :=
  fun name _ => if name = "searchNotion" then .ok [] else .error ("Unknown tool: " ++ name)

/-- A tool-use request dispatchable by `dispatchDemo`. -/
def toolUseDemoOk : ToolUseRequest :=
  { name := "searchNotion", input := some "q", toolUseId := "t1" }

/-- A tool-use request whose dispatch fails (unknown tool). -/
def toolUseDemoBad : ToolUseRequest :=
  { name := "searchBogus", input := some "q", toolUseId := "t2" }

/-- A plain text model reply requesting no tools. -/
def chatModelOutputPlain : ModelOutput :=
  { message := some [ContentBlock.text "hello"], stopReason := "end_turn" }

/-- A model reply requesting the two demo tool calls. -/
def chatModelOutputTools : ModelOutput :=
  { message := some [ContentBlock.toolUse "searchNotion" (some "q") "t1",
                     ContentBlock.toolUse "searchBogus" (some "q") "t2"],
    stopReason := "tool_use" }

/-- A fresh agent singleton. -/
def agentState0 : AgentState :=
  { conversations := fun _ => none, bedrock := { history := [] }, systemPrompt := "" }

/-- `agentState0` after creating conversation "A" at time 0. -/
def agentStateA : AgentState := (AgentService.createConversation agentState0 "A" 0).2

/-- `agentStateA` after one successful plain chat turn in "A" at time 1:
    the Bedrock history now holds that turn's user and assistant entries. -/
def agentStateB0 : AgentState :=
  (AgentService.chat agentStateA "first" (some "A") "unused" 1
    (.ok chatModelOutputPlain) dispatchDemo (.ok chatModelOutputPlain)).state

/-- `agentStateB0` after creating the empty conversation "B" at time 2. -/
def agentStateB : AgentState := (AgentService.createConversation agentStateB0 "B" 2).2

/-- The conversation "B" as stored in `agentStateB`. -/
def conversationB : AgentConversation :=
  { id := "B", messages := [], createdAt := 2, updatedAt := 2 }

/-! ## Theorems -/

theorem compareResults_total (a b : SearchResult) :
    compareResults a b ≤ 0 ∨ compareResults b a ≤ 0 := by
  unfold compareResults compareStrings
  cases ha : a.lastModified <;> cases hb : b.lastModified <;>
    simp only [] <;>
    try {
      by_cases hs : a.source = b.source
      · simp only [hs, ne_eq, not_true_eq_false, if_false, ite_false]
        by_cases h1 : ltChars a.title.data b.title.data
        · left; simp [h1]
        · by_cases h2 : ltChars b.title.data a.title.data
          · right; simp [h1, h2]
          · left; simp [h1, h2]
      · have hs' : ¬ b.source = a.source := fun h => hs h.symm
        simp only [ne_eq, hs, hs', not_false_eq_true, if_true, ite_true]
        cases hsa : a.source
        · left; simp
        · right
          cases hsb : b.source
          · simp
          · exact absurd (hsa.trans hsb.symm) hs
    }
  omega

theorem resultLE_total (a b : SearchResult) : resultLE a b ∨ resultLE b a :=
  compareResults_total a b

theorem chain_orderedInsert (a : SearchResult) :
    ∀ l : List SearchResult, List.Chain' resultLE l →
      List.Chain' resultLE (List.orderedInsert resultLE a l) := by
  intro l
  induction l with
  | nil => intro _; simp [List.orderedInsert]
  | cons b t ih =>
    intro h
    rw [List.orderedInsert]
    by_cases hr : resultLE a b
    · rw [if_pos hr]
      exact List.chain'_cons.mpr ⟨hr, h⟩
    · rw [if_neg hr]
      have hba : resultLE b a := (resultLE_total a b).resolve_left hr
      have ho := ih h.tail
      cases t with
      | nil =>
        simpa [List.orderedInsert] using List.chain'_pair.mpr hba
      | cons c t2 =>
        rw [List.orderedInsert] at ho ⊢
        by_cases hac : resultLE a c
        · rw [if_pos hac] at ho ⊢
          exact List.chain'_cons.mpr ⟨hba, ho⟩
        · rw [if_neg hac] at ho ⊢
          have hbc : resultLE b c := (List.chain'_cons.mp h).1
          exact List.chain'_cons.mpr ⟨hbc, ho⟩

theorem chain_sortSearchResults (l : List SearchResult) :
    List.Chain' resultLE (sortSearchResults l) := by
  unfold sortSearchResults
  induction l with
  | nil => simp [List.insertionSort]
  | cons b t ih =>
    rw [List.insertionSort]
    exact chain_orderedInsert b _ ih

/-- Claim C1 (amended): `sortSearchResults` returns a permutation of its
    input in which every adjacent pair satisfies the implemented comparator:
    when both entries carry `lastModified`, newer first (equal timestamps
    compare equal, with no further tie-break); otherwise the entries compare
    by source (notion before asana) and, for the same source, by title
    ascending.  Entries with an absent `lastModified` are NOT guaranteed to
    come after entries with a present one. -/
theorem sortSearchResults_perm_chain (l : List SearchResult) :
    List.Perm (sortSearchResults l) l ∧
    List.Chain' resultLE (sortSearchResults l) :=
  ⟨List.perm_insertionSort resultLE l, chain_sortSearchResults l⟩

/-- Claim C1 counterexample: sorting `[rAbsentNotion, rPresentAsana]` keeps
    the entry WITHOUT `lastModified` in front of the entry WITH one (the
    comparator never compares a present timestamp against an absent one; it
    falls through to the source tie-break, and notion sorts first).  On this
    two-element input the comparator is self-consistent, so the ECMAScript
    stable sort is forced to produce exactly this output.  This refutes
    "every entry with a present lastModified precedes every entry with an
    absent one". -/
theorem sort_absent_before_present_counterexample :
    sortSearchResults [rAbsentNotion, rPresentAsana] = [rAbsentNotion, rPresentAsana] ∧
    rAbsentNotion.lastModified = none ∧
    rPresentAsana.lastModified = some 5 :=
  ⟨by decide, rfl, rfl⟩

theorem dedupGo_sublist (l : List SearchResult) :
    ∀ seen : List String, List.Sublist (dedupGo seen l) l := by
  induction l with
  | nil => intro seen; simp [dedupGo]
  | cons r rest ih =>
    intro seen
    rw [dedupGo]
    by_cases h : dedupKey r ∈ seen
    · rw [if_pos h]
      exact (ih seen).trans (List.sublist_cons_self r rest)
    · rw [if_neg h]
      exact List.Sublist.cons₂ r (ih (dedupKey r :: seen))

theorem dedupGo_fresh (l : List SearchResult) :
    ∀ seen : List String, ∀ r ∈ dedupGo seen l, dedupKey r ∉ seen := by
  induction l with
  | nil => intro seen r hr; simp [dedupGo] at hr
  | cons x rest ih =>
    intro seen r hr
    rw [dedupGo] at hr
    by_cases h : dedupKey x ∈ seen
    · rw [if_pos h] at hr
      exact ih seen r hr
    · rw [if_neg h] at hr
      rcases List.mem_cons.mp hr with he | hr2
      · rw [he]; exact h
      · intro hcon
        exact ih (dedupKey x :: seen) r hr2 (List.mem_cons_of_mem _ hcon)

theorem dedupGo_pairwise (l : List SearchResult) :
    ∀ seen : List String,
      (dedupGo seen l).Pairwise (fun a b => dedupKey a ≠ dedupKey b) := by
  induction l with
  | nil => intro seen; simp [dedupGo]
  | cons x rest ih =>
    intro seen
    rw [dedupGo]
    by_cases h : dedupKey x ∈ seen
    · rw [if_pos h]; exact ih seen
    · rw [if_neg h]
      refine List.pairwise_cons.mpr ⟨?_, ih (dedupKey x :: seen)⟩
      intro b hb heq
      exact dedupGo_fresh rest (dedupKey x :: seen) b hb (by rw [← heq]; exact List.mem_cons_self _ _)

theorem dedupGo_id (l : List SearchResult) :
    ∀ seen : List String, (∀ r ∈ l, dedupKey r ∉ seen) →
      l.Pairwise (fun a b => dedupKey a ≠ dedupKey b) → dedupGo seen l = l := by
  induction l with
  | nil => intro seen _ _; simp [dedupGo]
  | cons x rest ih =>
    intro seen hfresh hpair
    rw [dedupGo, if_neg (hfresh x (List.mem_cons_self x rest))]
    congr 1
    refine ih (dedupKey x :: seen) ?_ (List.pairwise_cons.mp hpair).2
    intro r hr hmem
    rcases List.mem_cons.mp hmem with he | hseen
    · exact (List.pairwise_cons.mp hpair).1 r hr he.symm
    · exact hfresh r (List.mem_cons_of_mem _ hr) hseen

/-- Claim C5 (amended): `deduplicateResults` is idempotent, keeps the first
    occurrence of each key and preserves the relative order of kept entries
    (its output is a sublist of its input) — but the key is the concatenated
    string `source + "-" + title + "-" + first-100-chars(content)`, not the
    triple itself: agreement on the triple implies key agreement and is
    collapsed, while distinct triples can also collide (see the
    counterexample). -/
theorem deduplicateResults_idempotent_first_wins :
    (∀ L, deduplicateResults (deduplicateResults L) = deduplicateResults L) ∧
    (∀ L, List.Sublist (deduplicateResults L) L) ∧
    (∀ r1 r2, dedupKey r1 = dedupKey r2 → deduplicateResults [r1, r2] = [r1]) ∧
    (∀ r1 r2, dedupKey r1 ≠ dedupKey r2 → deduplicateResults [r1, r2] = [r1, r2]) := by
  refine ⟨?_, ?_, ?_, ?_⟩
  · intro L
    exact dedupGo_id (dedupGo [] L) []
      (fun r _ => List.not_mem_nil _) (dedupGo_pairwise L [])
  · intro L
    exact dedupGo_sublist L []
  · intro r1 r2 h
    simp [deduplicateResults, dedupGo, ← h]
  · intro r1 r2 h
    have h' : ¬ dedupKey r2 = dedupKey r1 := fun he => h he.symm
    simp [deduplicateResults, dedupGo, h']

/-- Claim C5 counterexample: `dupTitleA` and `dupTitleB` do NOT agree on the
    triple (source, title, first 100 characters of content) — their titles
    differ — yet `deduplicateResults` collapses them, because the key is
    built by string concatenation with `-` separators and both produce
    `notion-a-b-x`.  So "two results share a key exactly when they agree on
    the triple" fails in the only-if direction. -/
theorem dedupKey_collision_counterexample :
    deduplicateResults [dupTitleA, dupTitleB] = [dupTitleA] ∧
    dupTitleA.title ≠ dupTitleB.title ∧
    ¬(dupTitleA.source = dupTitleB.source ∧ dupTitleA.title = dupTitleB.title ∧
      takeChars dupTitleA.content 100 = takeChars dupTitleB.content 100) :=
  ⟨by decide, by decide, by decide⟩

/-- Claim C2: for a query that survives trimming, the aggregate search never
    raises: it returns (a sorted permutation of) exactly the concatenation
    of the successful backends' results, whatever each backend did, and in
    particular returns `ok []` when both backends fail. -/
theorem search_partial_failure_tolerant (query : String)
    (hq : ¬ (trimChars query).length = 0)
    (notionOutcome asanaOutcome : Except String (List SearchResult)) :
    (SearchService.search query notionOutcome asanaOutcome).1 =
      Except.ok (sortSearchResults (settledResults notionOutcome ++ settledResults asanaOutcome)) ∧
    List.Perm (sortSearchResults (settledResults notionOutcome ++ settledResults asanaOutcome))
      (settledResults notionOutcome ++ settledResults asanaOutcome) ∧
    (∀ vn e, notionOutcome = .ok vn → asanaOutcome = .error e →
      settledResults notionOutcome ++ settledResults asanaOutcome = vn) ∧
    (∀ va e, notionOutcome = .error e → asanaOutcome = .ok va →
      settledResults notionOutcome ++ settledResults asanaOutcome = va) ∧
    (∀ e1 e2, notionOutcome = .error e1 → asanaOutcome = .error e2 →
      (SearchService.search query notionOutcome asanaOutcome).1 = .ok []) := by
  refine ⟨?_, List.perm_insertionSort resultLE _, ?_, ?_, ?_⟩
  · unfold SearchService.search
    rw [if_neg hq]
  · intro vn e hn ha
    rw [hn, ha]; simp [settledResults]
  · intro va e hn ha
    rw [hn, ha]; simp [settledResults]
  · intro e1 e2 hn ha
    unfold SearchService.search
    rw [if_neg hq, hn, ha]
    rfl

/-- Witness for C2 at a concrete input: query `"q"`, notion failing, asana
    returning one result. -/
theorem search_partial_failure_tolerant_witness :
    (¬ (trimChars "q").length = 0) ∧
    ((SearchService.search "q" (.error "notion down") (.ok [rPresentAsana])).1 =
      Except.ok (sortSearchResults
        (settledResults (.error "notion down") ++ settledResults (.ok [rPresentAsana]))) ∧
    List.Perm (sortSearchResults
        (settledResults (.error "notion down") ++ settledResults (.ok [rPresentAsana])))
      (settledResults (.error "notion down") ++ settledResults (.ok [rPresentAsana])) ∧
    (∀ vn e, (Except.error "notion down" : Except String (List SearchResult)) = .ok vn →
      (Except.ok [rPresentAsana] : Except String (List SearchResult)) = .error e →
      settledResults (.error "notion down") ++ settledResults (.ok [rPresentAsana]) = vn) ∧
    (∀ va e, (Except.error "notion down" : Except String (List SearchResult)) = .error e →
      (Except.ok [rPresentAsana] : Except String (List SearchResult)) = .ok va →
      settledResults (.error "notion down") ++ settledResults (.ok [rPresentAsana]) = va) ∧
    (∀ e1 e2, (Except.error "notion down" : Except String (List SearchResult)) = .error e1 →
      (Except.ok [rPresentAsana] : Except String (List SearchResult)) = .error e2 →
      (SearchService.search "q" (.error "notion down") (.ok [rPresentAsana])).1 = .ok [])) :=
  ⟨by decide, search_partial_failure_tolerant "q" (by decide) (.error "notion down")
    (.ok [rPresentAsana])⟩

theorem manager_exclusion {st : ManagerState} (h : ManagerReachable st) :
    ∀ s, ¬ (st.clients s = true ∧ st.pending s = true) := by
  induction h with
  | init =>
    intro s hcon
    exact absurd hcon.1 (by simp [initialManagerState])
  | step hr hstep ih =>
    intro s hcon
    cases hstep with
    | acquireHit s0 hcl => exact ih s hcon
    | acquireJoin s0 hc hp => exact ih s hcon
    | acquireStart s0 hc hp =>
      by_cases hs : s = s0
      · subst hs
        exact absurd hcon.1 (by simp [hc])
      · exact ih s ⟨hcon.1, by simpa [setSvc, hs] using hcon.2⟩
    | settleSuccess s0 hp =>
      by_cases hs : s = s0
      · subst hs
        exact absurd hcon.2 (by simp [setSvc])
      · exact ih s ⟨by simpa [setSvc, hs] using hcon.1, by simpa [setSvc, hs] using hcon.2⟩
    | settleFailure s0 hp =>
      by_cases hs : s = s0
      · subst hs
        exact absurd hcon.2 (by simp [setSvc])
      · exact ih s ⟨hcon.1, by simpa [setSvc, hs] using hcon.2⟩
    | closeClient s0 =>
      by_cases hs : s = s0
      · subst hs
        exact absurd hcon.1 (by simp [setSvc])
      · exact ih s ⟨by simpa [setSvc, hs] using hcon.1, hcon.2⟩
    | probeEvict s0 hcl =>
      by_cases hs : s = s0
      · subst hs
        exact absurd hcon.1 (by simp [setSvc])
      · exact ih s ⟨by simpa [setSvc, hs] using hcon.1, hcon.2⟩

/-- Claim C4: in every reachable manager state a pending attempt and a
    stored live session never coexist for a service; acquire calls that find
    a live client or a pending attempt change nothing (in particular they
    perform no connect call); a connect attempt settles — successfully or
    not — by removing the pending entry; and the connect counter moves only
    on an `acquireStart`, which requires that no client and no pending
    attempt exist, so all acquires issued while an attempt is pending share
    that single attempt. -/
theorem manager_single_flight (st : ManagerState) (h : ManagerReachable st) :
    (∀ s, ¬ (st.clients s = true ∧ st.pending s = true)) ∧
    (∀ s st', ManagerStep st (.acquireHit s) st' → st' = st) ∧
    (∀ s st', ManagerStep st (.acquireJoin s) st' → st' = st) ∧
    (∀ s st', ManagerStep st (.acquireStart s) st' →
        st.pending s = false ∧ st.clients s = false ∧
        st'.pending s = true ∧ st'.connectCount s = st.connectCount s + 1) ∧
    (∀ s st', ManagerStep st (.settleSuccess s) st' →
        st'.pending s = false ∧ st'.clients s = true) ∧
    (∀ s st', ManagerStep st (.settleFailure s) st' →
        st'.pending s = false ∧ st'.clients s = st.clients s) ∧
    (∀ s l st', ManagerStep st l st' → ¬ st'.connectCount s = st.connectCount s →
        l = .acquireStart s ∧ st.pending s = false ∧ st.clients s = false) := by
  refine ⟨manager_exclusion h, ?_, ?_, ?_, ?_, ?_, ?_⟩
  · intro s st' hstep
    cases hstep; rfl
  · intro s st' hstep
    cases hstep; rfl
  · intro s st' hstep
    cases hstep with
    | acquireStart s0 hc hp => exact ⟨hp, hc, by simp [setSvc], by simp [setSvc]⟩
  · intro s st' hstep
    cases hstep with
    | settleSuccess s0 hp => exact ⟨by simp [setSvc], by simp [setSvc]⟩
  · intro s st' hstep
    cases hstep with
    | settleFailure s0 hp => exact ⟨by simp [setSvc], rfl⟩
  · intro s l st' hstep hcc
    cases hstep with
    | acquireHit s0 hcl => exact absurd rfl hcc
    | acquireJoin s0 hc hp => exact absurd rfl hcc
    | acquireStart s0 hc hp =>
      by_cases hs : s = s0
      · subst hs; exact ⟨rfl, hp, hc⟩
      · exact absurd (by simp [setSvc, hs]) hcc
    | settleSuccess s0 hp => exact absurd rfl hcc
    | settleFailure s0 hp => exact absurd rfl hcc
    | closeClient s0 => exact absurd rfl hcc
    | probeEvict s0 hcl => exact absurd rfl hcc

/-- Witness for C4 at the concrete reachable state `initialManagerState`. -/
theorem manager_single_flight_witness :
    (∀ s, ¬ (initialManagerState.clients s = true ∧ initialManagerState.pending s = true)) ∧
    (∀ s st', ManagerStep initialManagerState (.acquireHit s) st' → st' = initialManagerState) ∧
    (∀ s st', ManagerStep initialManagerState (.acquireJoin s) st' → st' = initialManagerState) ∧
    (∀ s st', ManagerStep initialManagerState (.acquireStart s) st' →
        initialManagerState.pending s = false ∧ initialManagerState.clients s = false ∧
        st'.pending s = true ∧ st'.connectCount s = initialManagerState.connectCount s + 1) ∧
    (∀ s st', ManagerStep initialManagerState (.settleSuccess s) st' →
        st'.pending s = false ∧ st'.clients s = true) ∧
    (∀ s st', ManagerStep initialManagerState (.settleFailure s) st' →
        st'.pending s = false ∧ st'.clients s = initialManagerState.clients s) ∧
    (∀ s l st', ManagerStep initialManagerState l st' →
        ¬ st'.connectCount s = initialManagerState.connectCount s →
        l = .acquireStart s ∧ initialManagerState.pending s = false ∧
        initialManagerState.clients s = false) :=
  manager_single_flight initialManagerState ManagerReachable.init

theorem managerStateConnected_reachable : ManagerReachable managerStateConnected :=
  ManagerReachable.step
    (ManagerReachable.step ManagerReachable.init
      (ManagerStep.acquireStart initialManagerState MCPService.notion rfl rfl))
    (ManagerStep.settleSuccess managerStateAfterStart MCPService.notion rfl)

/-- Claim C9: with a valid credential and a stored live session, a probe
    whose `listTools` liveness check fails evicts the session and reports
    `connected=false, needsAuth=false`, and the next acquire starts a fresh
    connect attempt (the connect counter moves); a probe with no credential
    reports `needsAuth=true`. -/
theorem probe_evicts_dead_session (st : ManagerState) (s : MCPService)
    (h : ManagerReachable st) (hc : st.clients s = true) :
    ((getConnectionStatus st s (.ok true) false).1 =
        { connected := false, needsAuth := false } ∧
      (getConnectionStatus st s (.ok true) false).2.clients s = false ∧
      (getClientPhase (getConnectionStatus st s (.ok true) false).2 s).1 = .startConnect ∧
      (getClientPhase (getConnectionStatus st s (.ok true) false).2 s).2.connectCount s =
        st.connectCount s + 1) ∧
    (∀ ok : Bool, (getConnectionStatus st s (.ok false) ok).1 =
        { connected := false, needsAuth := true }) := by
  have hp : st.pending s = false := by
    cases hpv : st.pending s
    · rfl
    · exact absurd ⟨hc, hpv⟩ (manager_exclusion h s)
  refine ⟨⟨?_, ?_, ?_, ?_⟩, ?_⟩
  · simp [getConnectionStatus, hc]
  · simp [getConnectionStatus, hc, setSvc]
  · simp [getConnectionStatus, getClientPhase, hc, hp, setSvc]
  · simp [getConnectionStatus, getClientPhase, hc, hp, setSvc]
  · intro ok
    simp [getConnectionStatus]

/-- Witness for C9 at the concrete reachable state `managerStateConnected`. -/
theorem probe_evicts_dead_session_witness :
    managerStateConnected.clients MCPService.notion = true ∧
    (((getConnectionStatus managerStateConnected MCPService.notion (.ok true) false).1 =
        { connected := false, needsAuth := false } ∧
      (getConnectionStatus managerStateConnected MCPService.notion
          (.ok true) false).2.clients MCPService.notion = false ∧
      (getClientPhase (getConnectionStatus managerStateConnected MCPService.notion
          (.ok true) false).2 MCPService.notion).1 = .startConnect ∧
      (getClientPhase (getConnectionStatus managerStateConnected MCPService.notion
          (.ok true) false).2 MCPService.notion).2.connectCount MCPService.notion =
        managerStateConnected.connectCount MCPService.notion + 1) ∧
    (∀ ok : Bool, (getConnectionStatus managerStateConnected MCPService.notion (.ok false) ok).1 =
        { connected := false, needsAuth := true })) :=
  ⟨rfl, probe_evicts_dead_session managerStateConnected MCPService.notion
    managerStateConnected_reachable rfl⟩

/-- Witness for C5's amended claim at concrete inputs: a colliding pair is
    collapsed to its first occurrence, a non-colliding pair is kept whole. -/
theorem deduplicateResults_idempotent_first_wins_witness :
    deduplicateResults [dupTitleA, dupTitleB] = [dupTitleA] ∧
    deduplicateResults [dupTitleA, dupTitleC] = [dupTitleA, dupTitleC] :=
  ⟨deduplicateResults_idempotent_first_wins.2.2.1 dupTitleA dupTitleB (by decide),
   deduplicateResults_idempotent_first_wins.2.2.2 dupTitleA dupTitleC (by decide)⟩

theorem runToolLoop_eq_map
    (dispatch : String → Option String → Except String (List SearchResult)) :
    ∀ (tus : List ToolUseRequest) (acc : ToolLoopState),
      (tus.foldl (toolLoopStep dispatch) acc).toolResults =
        acc.toolResults ++ tus.map (resultOfToolUse dispatch) := by
  intro tus
  induction tus with
  | nil => intro acc; simp
  | cons tu rest ih =>
    intro acc
    rw [List.foldl_cons, List.map_cons, ih]
    cases hd : dispatch tu.name tu.input <;>
      simp [toolLoopStep, resultOfToolUse, hd]

/-- Claim C6: the tool loop records exactly one result per requested tool
    call, in request order (so a failure never prevents the remaining calls
    from being dispatched); each result carries the original correlation id;
    a failed dispatch — an unknown tool name included — records the error
    string and a null payload, a successful one records the payload. -/
theorem toolLoop_one_result_per_request
    (dispatch : String → Option String → Except String (List SearchResult))
    (tus : List ToolUseRequest) :
    (runToolLoop dispatch tus).toolResults = tus.map (resultOfToolUse dispatch) ∧
    (runToolLoop dispatch tus).toolResults.length = tus.length ∧
    (∀ tu : ToolUseRequest, (resultOfToolUse dispatch tu).toolUseId = tu.toolUseId) ∧
    (∀ tu e, dispatch tu.name tu.input = .error e →
      resultOfToolUse dispatch tu =
        { toolUseId := tu.toolUseId, result := none, error := some e }) ∧
    (∀ tu r, dispatch tu.name tu.input = .ok r →
      resultOfToolUse dispatch tu =
        { toolUseId := tu.toolUseId, result := some r, error := none }) := by
  have hmap : (runToolLoop dispatch tus).toolResults = tus.map (resultOfToolUse dispatch) := by
    unfold runToolLoop
    rw [runToolLoop_eq_map]
    simp
  refine ⟨hmap, by rw [hmap]; exact List.length_map tus _, ?_, ?_, ?_⟩
  · intro tu
    unfold resultOfToolUse
    cases hd : dispatch tu.name tu.input <;> simp
  · intro tu e hd
    simp [resultOfToolUse, hd]
  · intro tu r hd
    simp [resultOfToolUse, hd]

/-- Witness for C6 at a concrete two-request turn, one dispatch succeeding
    and the other failing with an unknown tool name. -/
theorem toolLoop_one_result_per_request_witness :
    ((runToolLoop dispatchDemo [toolUseDemoOk, toolUseDemoBad]).toolResults =
      [toolUseDemoOk, toolUseDemoBad].map (resultOfToolUse dispatchDemo)) ∧
    resultOfToolUse dispatchDemo toolUseDemoBad =
      { toolUseId := toolUseDemoBad.toolUseId, result := none,
        error := some "Unknown tool: searchBogus" } ∧
    resultOfToolUse dispatchDemo toolUseDemoOk =
      { toolUseId := toolUseDemoOk.toolUseId, result := some [], error := none } :=
  ⟨(toolLoop_one_result_per_request dispatchDemo [toolUseDemoOk, toolUseDemoBad]).1,
   (toolLoop_one_result_per_request dispatchDemo [toolUseDemoOk, toolUseDemoBad]).2.2.2.1
     toolUseDemoBad "Unknown tool: searchBogus" (by decide),
   (toolLoop_one_result_per_request dispatchDemo [toolUseDemoOk, toolUseDemoBad]).2.2.2.2
     toolUseDemoOk [] (by decide)⟩

/-- Claim C8: a query that is empty after trimming makes `search` fail with
    the validation error and an empty backend-call list, and an empty message
    makes `chat` fail with the validation error, no model invocation (empty
    `sent` log) and an unchanged agent state — all before any network
    activity. -/
theorem empty_request_fails_before_network :
    (∀ query notionOutcome asanaOutcome, (trimChars query).length = 0 →
      SearchService.search query notionOutcome asanaOutcome =
        (.error "Search query cannot be empty", [])) ∧
    (∀ st message conversationId newId now out1 dispatch out2,
      (trimChars message).length = 0 →
      (AgentService.chat st message conversationId newId now out1 dispatch out2).result =
          .error "Message cannot be empty" ∧
      (AgentService.chat st message conversationId newId now out1 dispatch out2).sent = [] ∧
      (AgentService.chat st message conversationId newId now out1 dispatch out2).state = st) := by
  constructor
  · intro query notionOutcome asanaOutcome h
    unfold SearchService.search
    rw [if_pos h]
  · intro st message conversationId newId now out1 dispatch out2 h
    unfold AgentService.chat
    rw [if_pos h]
    exact ⟨rfl, rfl, rfl⟩

/-- Witness for C8 at the whitespace-only query and message `"  "`. -/
theorem empty_request_fails_before_network_witness :
    ((trimChars "  ").length = 0 ∧
      SearchService.search "  " (.ok []) (.ok []) =
        (.error "Search query cannot be empty", [])) ∧
    ((AgentService.chat agentState0 "  " none "c1" 0 (.ok chatModelOutputPlain)
        dispatchDemo (.ok chatModelOutputPlain)).result = .error "Message cannot be empty" ∧
      (AgentService.chat agentState0 "  " none "c1" 0 (.ok chatModelOutputPlain)
        dispatchDemo (.ok chatModelOutputPlain)).sent = [] ∧
      (AgentService.chat agentState0 "  " none "c1" 0 (.ok chatModelOutputPlain)
        dispatchDemo (.ok chatModelOutputPlain)).state = agentState0) :=
  ⟨⟨by decide, empty_request_fails_before_network.1 "  " (.ok []) (.ok []) (by decide)⟩,
   empty_request_fails_before_network.2 agentState0 "  " none "c1" 0 (.ok chatModelOutputPlain)
     dispatchDemo (.ok chatModelOutputPlain) (by decide)⟩

theorem chat_state_characterization
    (st : AgentState) (message : String) (conversationId : Option String)
    (newId : String) (now : Nat) (out1 : Except String ModelOutput)
    (dispatch : String → Option String → Except String (List SearchResult))
    (out2 : Except String ModelOutput) :
    ((∃ e, (AgentService.chat st message conversationId newId now out1 dispatch out2).result =
        .error e) ∧
      (AgentService.chat st message conversationId newId now out1 dispatch out2).state.conversations =
        st.conversations) ∨
    ((∃ e, (AgentService.chat st message conversationId newId now out1 dispatch out2).result =
        .error e) ∧
      (AgentService.chat st message conversationId newId now out1 dispatch out2).state.conversations =
        (chatBase st conversationId newId now).conversations) ∨
    (∃ resp conversation,
      (AgentService.chat st message conversationId newId now out1 dispatch out2).result =
        .ok resp ∧
      (chatBase st conversationId newId now).conversations (chatCid conversationId newId) =
        some conversation ∧
      (AgentService.chat st message conversationId newId now out1 dispatch out2).state.conversations =
        fun x => if x = chatCid conversationId newId then
          some { conversation with
                 messages := conversation.messages ++
                   [chatUserMessage message now,
                    chatAssistantMessage resp.response resp.toolsUsed now],
                 updatedAt := now }
        else (chatBase st conversationId newId now).conversations x) := by
  unfold AgentService.chat
  by_cases htrim : (trimChars message).length = 0
  · rw [if_pos htrim]
    exact Or.inl ⟨⟨_, rfl⟩, rfl⟩
  · rw [if_neg htrim]
    cases conversationId with
    | some cid =>
      simp only [chatBase, chatCid]
      cases hlook : st.conversations cid with
      | none => exact Or.inl ⟨⟨_, rfl⟩, by trivial⟩
      | some conversation =>
        cases out1 with
        | error e0 =>
          simp only [BedrockClientService.converse]
          exact Or.inl ⟨⟨_, rfl⟩, by trivial⟩
        | ok mo =>
          simp only [BedrockClientService.converse]
          split
          · cases out2 with
            | error e2 =>
              simp only [BedrockClientService.continueWithToolResults]
              exact Or.inl ⟨⟨_, rfl⟩, by trivial⟩
            | ok mo2 =>
              simp only [BedrockClientService.continueWithToolResults]
              exact Or.inr (Or.inr ⟨_, conversation, rfl, rfl, rfl⟩)
          · exact Or.inr (Or.inr ⟨_, conversation, rfl, rfl, rfl⟩)
    | none =>
      simp only [chatBase, chatCid, AgentService.createConversation,
        eq_self_iff_true, if_true]
      cases out1 with
      | error e0 =>
        simp only [BedrockClientService.converse]
        exact Or.inr (Or.inl ⟨⟨_, rfl⟩, by trivial⟩)
      | ok mo =>
        simp only [BedrockClientService.converse]
        split
        · cases out2 with
          | error e2 =>
            simp only [BedrockClientService.continueWithToolResults]
            exact Or.inr (Or.inl ⟨⟨_, rfl⟩, by trivial⟩)
          | ok mo2 =>
            simp only [BedrockClientService.continueWithToolResults]
            exact Or.inr (Or.inr ⟨_, _, rfl, rfl, rfl⟩)
        · exact Or.inr (Or.inr ⟨_, _, rfl, rfl, rfl⟩)

/-- Claim C10: a chat call that resolves an existing conversation (explicit
    id, present in the map) and then fails — model invocation or tool-result
    continuation error — leaves the conversations map, messages and
    `updatedAt` included, exactly as it was: messages are appended only
    after the final response has been obtained. -/
theorem failed_chat_preserves_conversation
    (st : AgentState) (message cid newId : String) (now : Nat)
    (out1 : Except String ModelOutput)
    (dispatch : String → Option String → Except String (List SearchResult))
    (out2 : Except String ModelOutput) (c : AgentConversation) (e : String)
    (_hconv : st.conversations cid = some c)
    (hres : (AgentService.chat st message (some cid) newId now out1 dispatch out2).result =
      .error e) :
    (AgentService.chat st message (some cid) newId now out1 dispatch out2).state.conversations =
      st.conversations := by
  rcases chat_state_characterization st message (some cid) newId now out1 dispatch out2 with
    ⟨_, hst⟩ | ⟨_, hst⟩ | ⟨resp, conversation, hok, _, _⟩
  · exact hst
  · simpa [chatBase] using hst
  · rw [hok] at hres
    exact Except.noConfusion hres

/-- Witness for C10: conversation "B" exists in `agentStateB`; a chat whose
    model invocation rejects leaves the conversations map unchanged. -/
theorem failed_chat_preserves_conversation_witness :
    agentStateB.conversations "B" = some conversationB ∧
    (AgentService.chat agentStateB "second" (some "B") "unused" 3 (.error "boom")
        dispatchDemo (.ok chatModelOutputPlain)).result =
      .error "Agent conversation failed: LLM conversation failed: boom" ∧
    (AgentService.chat agentStateB "second" (some "B") "unused" 3 (.error "boom")
        dispatchDemo (.ok chatModelOutputPlain)).state.conversations =
      agentStateB.conversations :=
  ⟨by decide, by decide,
   failed_chat_preserves_conversation agentStateB "second" "B" "unused" 3
     (.error "boom") dispatchDemo (.ok chatModelOutputPlain) conversationB
     "Agent conversation failed: LLM conversation failed: boom" (by decide) (by decide)⟩

/-- Claim C3 (amended): for every chat call that reaches the model (valid
    message, resolved conversation), the transcript supplied to the Model
    Invoker is the Bedrock client's own accumulated `conversationHistory` —
    a single history shared across ALL conversations — followed by the new
    user message, not the resolved conversation's message sequence. -/
theorem chat_transcript_is_invoker_history
    (st : AgentState) (message cid newId : String) (now : Nat)
    (out1 : Except String ModelOutput)
    (dispatch : String → Option String → Except String (List SearchResult))
    (out2 : Except String ModelOutput) (c : AgentConversation)
    (hmsg : ¬ (trimChars message).length = 0)
    (hconv : st.conversations cid = some c) :
    (AgentService.chat st message (some cid) newId now out1 dispatch out2).sent.head? =
      some (st.bedrock.history ++ [⟨Role.user, [ContentBlock.text message]⟩]) := by
  unfold AgentService.chat
  rw [if_neg hmsg]
  simp only [hconv]
  cases out1 with
  | error e0 => simp [BedrockClientService.converse]
  | ok mo =>
    simp only [BedrockClientService.converse]
    split
    · cases out2 with
      | error e2 => simp [BedrockClientService.continueWithToolResults]
      | ok mo2 => simp [BedrockClientService.continueWithToolResults, finishChat]
    · simp [finishChat]

/-- Witness for the amended C3 on a concrete state with non-empty invoker
    history. -/
theorem chat_transcript_is_invoker_history_witness :
    (¬ (trimChars "second").length = 0) ∧
    agentStateB.conversations "B" = some conversationB ∧
    (AgentService.chat agentStateB "second" (some "B") "unused" 3
        (.ok chatModelOutputPlain) dispatchDemo (.ok chatModelOutputPlain)).sent.head? =
      some (agentStateB.bedrock.history ++ [⟨Role.user, [ContentBlock.text "second"]⟩]) :=
  ⟨by decide, by decide,
   chat_transcript_is_invoker_history agentStateB "second" "B" "unused" 3
     (.ok chatModelOutputPlain) dispatchDemo (.ok chatModelOutputPlain) conversationB
     (by decide) (by decide)⟩

/-- Claim C3 counterexample: in `agentStateB` the resolved conversation "B"
    is empty, yet the transcript supplied to the model for a chat in "B"
    still carries the Bedrock-history entries of the earlier turn held in
    conversation "A" — the invoker history is global, not per conversation —
    so it is NOT the resolved conversation's message sequence followed by
    the new user message. -/
theorem chat_transcript_counterexample :
    agentStateB.conversations "B" = some conversationB ∧
    conversationB.messages = [] ∧
    (AgentService.chat agentStateB "second" (some "B") "unused" 3
        (.ok chatModelOutputPlain) dispatchDemo (.ok chatModelOutputPlain)).sent.head? ≠
      some (claimedTranscript conversationB ++ [⟨Role.user, [ContentBlock.text "second"]⟩]) :=
  ⟨by decide, rfl, by decide⟩

/-- Claim C7: (1) a successful chat call on a resolved conversation appends
    exactly one user message followed by one assistant message — the latter
    carrying the used tool names exactly when some tool was used — and
    stamps `updatedAt`; (2) across every agent operation (with fresh
    generated ids), a conversation present before and after keeps its old
    message list as a prefix of the new one — no operation modifies or
    removes previously appended messages of a stored conversation; (3)
    `updatedAt` is non-decreasing whenever the operation's clock reading is
    not in the conversation's past. -/
theorem conversation_append_only :
    (∀ st message cid newId now out1 dispatch out2 c resp,
      st.conversations cid = some c →
      (AgentService.chat st message (some cid) newId now out1 dispatch out2).result = .ok resp →
      (AgentService.chat st message (some cid) newId now out1 dispatch out2).state.conversations
          cid =
        some { c with
               messages := c.messages ++
                 [chatUserMessage message now,
                  chatAssistantMessage resp.response resp.toolsUsed now],
               updatedAt := now }) ∧
    (∀ st op cid c c', opFreshIds st op →
      st.conversations cid = some c →
      (applyAgentOp st op).conversations cid = some c' →
      (∃ tail, c'.messages = c.messages ++ tail) ∧
      ((∀ t, opTime op = some t → c.updatedAt ≤ t) → c.updatedAt ≤ c'.updatedAt)) := by
  have hchat : ∀ st message cid newId now out1 dispatch out2 c resp,
      st.conversations cid = some c →
      (AgentService.chat st message (some cid) newId now out1 dispatch out2).result = .ok resp →
      (AgentService.chat st message (some cid) newId now out1 dispatch out2).state.conversations
          cid =
        some { c with
               messages := c.messages ++
                 [chatUserMessage message now,
                  chatAssistantMessage resp.response resp.toolsUsed now],
               updatedAt := now } := by
    intro st message cid newId now out1 dispatch out2 c resp hconv hok
    rcases chat_state_characterization st message (some cid) newId now out1 dispatch out2 with
      ⟨⟨e, he⟩, _⟩ | ⟨⟨e, he⟩, _⟩ | ⟨resp', conversation, hok', hlook, hst⟩
    · rw [hok] at he; exact Except.noConfusion he
    · rw [hok] at he; exact Except.noConfusion he
    · rw [hok] at hok'
      have hresp : resp' = resp := (Except.ok.inj hok').symm
      subst hresp
      have hcv : conversation = c := by
        have : (chatBase st (some cid) newId now).conversations (chatCid (some cid) newId) =
            st.conversations cid := rfl
        rw [this, hconv] at hlook
        exact (Option.some.inj hlook).symm
      subst hcv
      rw [hst]
      simp [chatCid]
  refine ⟨hchat, ?_⟩
  intro st op cid c c' hfresh hbefore hafter
  cases op with
  | chatOp message conversationId newId now out1 dispatch out2 =>
    have hstate :
        (applyAgentOp st (.chatOp message conversationId newId now out1 dispatch out2)) =
          (AgentService.chat st message conversationId newId now out1 dispatch out2).state := rfl
    rw [hstate] at hafter
    rcases chat_state_characterization st message conversationId newId now out1 dispatch out2 with
      ⟨_, hst⟩ | ⟨_, hst⟩ | ⟨resp, conversation, hok, hlook, hst⟩
    · rw [hst, hbefore] at hafter
      cases Option.some.inj hafter
      exact ⟨⟨[], by simp⟩, fun _ => le_refl _⟩
    · rw [hst] at hafter
      cases conversationId with
      | some cid0 =>
        have : (chatBase st (some cid0) newId now).conversations cid = st.conversations cid := rfl
        rw [this, hbefore] at hafter
        cases Option.some.inj hafter
        exact ⟨⟨[], by simp⟩, fun _ => le_refl _⟩
      | none =>
        have hf : st.conversations newId = none := hfresh rfl
        by_cases hcid : cid = newId
        · rw [hcid, hf] at hbefore; exact Option.noConfusion hbefore
        · have : (chatBase st none newId now).conversations cid = st.conversations cid := by
            simp [chatBase, AgentService.createConversation, hcid]
          rw [this, hbefore] at hafter
          cases Option.some.inj hafter
          exact ⟨⟨[], by simp⟩, fun _ => le_refl _⟩
    · rw [hst] at hafter
      simp only [] at hafter
      by_cases hcid : cid = chatCid conversationId newId
      · rw [if_pos hcid] at hafter
        have hcv : conversation = c := by
          cases conversationId with
          | some cid0 =>
            have he : (chatBase st (some cid0) newId now).conversations
                (chatCid (some cid0) newId) = st.conversations cid0 := rfl
            rw [he] at hlook
            have hcc : cid = cid0 := hcid
            rw [← hcc, hbefore] at hlook
            exact (Option.some.inj hlook).symm
          | none =>
            have hf : st.conversations newId = none := hfresh rfl
            have hcc : cid = newId := hcid
            rw [hcc, hf] at hbefore
            exact Option.noConfusion hbefore
        subst hcv
        cases Option.some.inj hafter
        refine ⟨⟨_, rfl⟩, fun htime => ?_⟩
        exact htime now rfl
      · rw [if_neg hcid] at hafter
        cases conversationId with
        | some cid0 =>
          have : (chatBase st (some cid0) newId now).conversations cid =
              st.conversations cid := rfl
          rw [this, hbefore] at hafter
          cases Option.some.inj hafter
          exact ⟨⟨[], by simp⟩, fun _ => le_refl _⟩
        | none =>
          have hcid' : ¬ cid = newId := hcid
          have : (chatBase st none newId now).conversations cid = st.conversations cid := by
            simp [chatBase, AgentService.createConversation, hcid']
          rw [this, hbefore] at hafter
          cases Option.some.inj hafter
          exact ⟨⟨[], by simp⟩, fun _ => le_refl _⟩
  | createOp newId now =>
    have hf : st.conversations newId = none := hfresh
    by_cases hcid : cid = newId
    · rw [hcid, hf] at hbefore; exact Option.noConfusion hbefore
    · have : (applyAgentOp st (.createOp newId now)).conversations cid =
          st.conversations cid := by
        simp [applyAgentOp, AgentService.createConversation, hcid]
      rw [this, hbefore] at hafter
      cases Option.some.inj hafter
      exact ⟨⟨[], by simp⟩, fun _ => le_refl _⟩
  | clearOp cid0 =>
    have hstate : (applyAgentOp st (.clearOp cid0)) = (AgentService.clearConversation st cid0).2 :=
      rfl
    rw [hstate] at hafter
    unfold AgentService.clearConversation at hafter
    cases hl : st.conversations cid0 with
    | none =>
      rw [hl] at hafter
      simp only [] at hafter
      rw [hbefore] at hafter
      cases Option.some.inj hafter
      exact ⟨⟨[], by simp⟩, fun _ => le_refl _⟩
    | some c0 =>
      rw [hl] at hafter
      simp only [] at hafter
      by_cases hcid : cid = cid0
      · rw [if_pos hcid] at hafter; exact Option.noConfusion hafter
      · rw [if_neg hcid, hbefore] at hafter
        cases Option.some.inj hafter
        exact ⟨⟨[], by simp⟩, fun _ => le_refl _⟩
  | clearAllOp =>
    exact Option.noConfusion hafter
  | setPromptOp p =>
    simp only [applyAgentOp] at hafter
    rw [hbefore] at hafter
    cases Option.some.inj hafter
    exact ⟨⟨[], by simp⟩, fun _ => le_refl _⟩

/-- Witness for C7: a successful chat in conversation "A" appends exactly
    the user/assistant pair and stamps `updatedAt`; a `clearConversation` on
    a missing id leaves conversation "A"'s messages a prefix of themselves
    with `updatedAt` unchanged. -/
theorem conversation_append_only_witness :
    ((AgentService.chat agentStateA "first" (some "A") "unused" 1
        (.ok chatModelOutputPlain) dispatchDemo (.ok chatModelOutputPlain)).state.conversations
        "A" =
      some { id := "A",
             messages := [chatUserMessage "first" 1, chatAssistantMessage "hello" [] 1],
             createdAt := 0, updatedAt := 1 }) ∧
    ((∃ tail, ({ id := "A", messages := [], createdAt := 0, updatedAt := 0 }
        : AgentConversation).messages =
        ({ id := "A", messages := [], createdAt := 0, updatedAt := 0 }
          : AgentConversation).messages ++ tail) ∧
      ((∀ t, opTime (.clearOp "Z") = some t →
          ({ id := "A", messages := [], createdAt := 0, updatedAt := 0 }
            : AgentConversation).updatedAt ≤ t) →
        ({ id := "A", messages := [], createdAt := 0, updatedAt := 0 }
          : AgentConversation).updatedAt ≤
        ({ id := "A", messages := [], createdAt := 0, updatedAt := 0 }
          : AgentConversation).updatedAt)) := by
  constructor
  · have h := conversation_append_only.1 agentStateA "first" "A" "unused" 1
      (.ok chatModelOutputPlain) dispatchDemo (.ok chatModelOutputPlain)
      { id := "A", messages := [], createdAt := 0, updatedAt := 0 }
      { response := "hello", toolsUsed := [], searchResults := none, conversationId := "A" }
      (by decide) (by decide)
    simpa using h
  · exact conversation_append_only.2 agentStateA (.clearOp "Z") "A"
      { id := "A", messages := [], createdAt := 0, updatedAt := 0 }
      { id := "A", messages := [], createdAt := 0, updatedAt := 0 }
      trivial (by decide) (by decide)
